import Mathlib

/-!
Verification of the Pure → ROR matcher core logic.

Shallow embedding of the orchestration logic of the matcher app
(eligibility filtering, candidate ranking and enrichment, the
refetch-before-write link protocol, award points, history, and
persistence loading).  HTTP transport, JSON parsing of network
responses and the random draw are modelled as explicit inputs
(oracles); JavaScript numbers that carry relevance scores are
modelled as rationals, which is faithful for the comparisons the
code performs on them.  Presentation-only fields of the data
shapes are omitted.
-/

namespace PureRor

/-! ## JS string primitives

The JavaScript string methods the core calls (`endsWith`, `toLowerCase`,
`trim`, `replace` with a string pattern) are modelled over the character
list of the string, so that concrete runs can be evaluated. -/

/-- Whitespace as skipped by `trim` and `parseInt`. -/
def isJsSpace (c : Char) : Bool :=
  c == ' ' || c == '\t' || c == '\n' || c == '\r'

/-- JS `s.endsWith(suf)`. -/
def jsEndsWith (s suf : String) : Bool :=
  suf.data.isSuffixOf s.data

/-- JS `s.toLowerCase()` (ASCII case mapping). -/
def jsToLower (s : String) : String :=
  String.mk (s.data.map Char.toLower)

/-- JS `s.trim()`. -/
def jsTrim (s : String) : String :=
  String.mk (((s.data.dropWhile isJsSpace).reverse.dropWhile isJsSpace).reverse)

/-- Remove the first occurrence of `pat` from `s` (empty `pat` matches
immediately and removes nothing). -/
def removeFirstOcc : List Char → List Char → List Char
  | [], _ => []
  | c :: rest, pat =>
    if pat.isPrefixOf (c :: rest) then (c :: rest).drop pat.length
    else c :: removeFirstOcc rest pat

/-- JS `s.replace(pat, "")` with a string pattern: remove the leftmost
occurrence of `pat`. -/
def replaceFirst (s pat : String) : String :=
  String.mk (removeFirstOcc s.data pat.data)


/-! ## Data model (catalog side) -/

/-- An identifier type reference: the type URI plus localized term labels.
The URI is optional to model loosely-typed identifier values whose
`type.uri` may be absent or not a string. -/
structure IdentifierType where
  uri : Option String
  term : List (String × String)
deriving DecidableEq, Repr

/-- A catalog identifier.  The source type is `ClassifiedId | any`, so every
field is optional; a well-formed `ClassifiedId` has
`typeDiscriminator = some "ClassifiedId"`, an external id and a type. -/
structure Identifier where
  typeDiscriminator : Option String
  id : Option String
  type : Option IdentifierType
deriving DecidableEq, Repr

/-- Workflow information of a catalog record. -/
structure Workflow where
  step : Option String
deriving DecidableEq, Repr

/-- A catalog record (external organization).  The localized name map is an
association list in object-key order. -/
structure ExtOrgItem where
  uuid : String
  version : String
  name : Option (List (String × String))
  identifiers : Option (List Identifier)
  workflow : Option Workflow
deriving DecidableEq, Repr

/-- The configured registry identifier type (`ROR_TYPE` in `config.ts`). -/
def ROR_TYPE : IdentifierType :=
  { uri := some "/dk/atira/pure/ueoexternalorganisation/ueoexternalorganisationsources/ror"
    term := [("en_GB", "ROR ID"), ("da_DK", "ROR ID")] }

/-- Does one identifier count as the registry (ROR) identifier?  This is the
predicate tested inside `hasRorIdentifier`: a `ClassifiedId` whose type URI
is a string ending in `"/ror"`. -/
def isRorId (i : Identifier) : Bool :=
  i.typeDiscriminator == some "ClassifiedId" &&
    (match i.type with
      | some t =>
        match t.uri with
        | some u => jsEndsWith u "/ror"
        | none => false
      | none => false)

/-- `hasRorIdentifier`: true when the (optional) identifier list contains a
registry identifier. -/
def hasRorIdentifier (identifiers : Option (List Identifier)) : Bool :=
  match identifiers with
  | none => false
  | some l => l.any isRorId

/-- Number of registry identifiers in a list. -/
def countRor (ids : List Identifier) : Nat :=
  (ids.filter isRorId).length

/-- Truthy lookup in a locale map: a key counts only when present with a
non-empty value (JS truthiness of `map[key]`). -/
def lookupTruthy (m : List (String × String)) (k : String) : Option String :=
  match m.lookup k with
  | some v => if v = "" then none else some v
  | none => none

/-- `pickPreferredLocale` (value component): prefer `en_GB`, then `da_DK`,
else the first entry's value, else the empty string. -/
def pickPreferredLocale (map : Option (List (String × String))) : String :=
  match map with
  | none => ""
  | some m =>
    match lookupTruthy m "en_GB" with
    | some v => v
    | none =>
      match lookupTruthy m "da_DK" with
      | some v => v
      | none =>
        match m.head? with
        | some kv => kv.2
        | none => ""

/-! ## fetchRandomOrg -/

/-- Workflow step of a record, through the optional chain
`item?.workflow?.step`. -/
def workflowStep (item : ExtOrgItem) : Option String :=
  item.workflow.bind Workflow.step

/-- Is the record in an eligible workflow state and free of a registry
identifier?  This is the filter applied by `fetchRandomOrg`. -/
def eligibleOrg (item : ExtOrgItem) : Bool :=
  (workflowStep item == some "forApproval" || workflowStep item == some "approved") &&
    !hasRorIdentifier item.identifiers

/-- `fetchRandomOrg`, with the network modelled as inputs: `count` is the
result of the count query, `offset` the random draw, and `pageAt` the page
returned for a given offset.  The second component counts the page probes
performed after the count query (the call returns early, without probing,
when the catalog is empty).  Non-success HTTP responses (exceptions in the
source) are outside this model. -/
def fetchRandomOrg (count : Nat) (pageAt : Nat → List ExtOrgItem) (offset : Nat) :
    Option ExtOrgItem × Nat :=
  if count = 0 then (none, 0)
  else
    match (pageAt offset).head? with
    | none => (none, 1)
    | some item => if eligibleOrg item then (some item, 1) else (none, 1)

/-! ## Data model (registry side) -/

/-- One entry of a registry organization's `names` list. -/
structure NameEntry where
  value : String
  types : Option (List String)
  lang : Option String
deriving DecidableEq, Repr

/-- Geonames location details of a registry organization. -/
structure GeonamesDetails where
  country_name : Option String
  country_code : Option String
  continent_name : Option String
  country_subdivision_name : Option String
  name : Option String
deriving DecidableEq, Repr

/-- One location of a registry organization. -/
structure RorLocation where
  geonames_details : Option GeonamesDetails
  geonames_id : Option Nat
deriving DecidableEq, Repr

/-- A registry organization (`RorOrg`).  The raw score of the search response
lives on the hit, not here. -/
structure RorOrg where
  id : String
  name : Option String
  names : Option (List NameEntry)
  aliases : Option (List String)
  acronyms : Option (List String)
  links : Option (List String)
  locations : Option (List RorLocation)
deriving DecidableEq, Repr

/-- The empty-object `as RorOrg` fallback used when a raw hit has no
organization object; its absent `id` is modelled as the empty string. -/
def emptyRorOrg : RorOrg :=
  { id := "", name := none, names := none, aliases := none, acronyms := none
    links := none, locations := none }

/-- A ranked candidate: a registry organization spread together with the
local score, match type, recommended (`chosen`) flag and substring hint. -/
structure Candidate where
  org : RorOrg
  scoreLocal : ℚ
  matching_type : Option String
  chosen : Bool
  substring : Option String
deriving DecidableEq, Repr

/-- One raw item of the affiliation-search response.  `score` is `none` when
the field is absent or not a finite number (the source coerces both to 0);
`matching_type` and `substring` are `none` when absent or not strings;
`chosen` is the truthiness of the raw flag. -/
structure RawHit where
  organization : Option RorOrg
  score : Option ℚ
  matching_type : Option String
  chosen : Bool
  substring : Option String
deriving DecidableEq, Repr

/-! ## Display name and aliases -/

/-- Fallback of `rorDisplayName` when the curated `name` field is missing or
blank: a name tagged `ror_display`, else one tagged `label`, else the first
name, else the raw id (also when the picked name value is empty). -/
def rorDisplayFallback (r : RorOrg) : String :=
  let byDisplay := (r.names.getD []).find? (fun n => (n.types.getD []).contains "ror_display")
  let byLabel := (r.names.getD []).find? (fun n => (n.types.getD []).contains "label")
  let pick :=
    match byDisplay with
    | some n => some n
    | none =>
      match byLabel with
      | some n => some n
      | none => (r.names.getD []).head?
  match pick with
  | some n => if n.value = "" then r.id else n.value
  | none => r.id

/-- `rorDisplayName`: prefer the curated `name` field when truthy and not
blank, else fall back to the tagged names / first name / id. -/
def rorDisplayName (r : RorOrg) : String :=
  match r.name with
  | some n => if n ≠ "" ∧ jsTrim n ≠ "" then n else rorDisplayFallback r
  | none => rorDisplayFallback r

/-- First-occurrence deduplication of a string list; this is the order and
multiplicity behaviour of `Array.from(new Set(l))`. -/
def jsSetDedup (l : List String) : List String :=
  l.foldl (fun acc x => if x ∈ acc then acc else acc ++ [x]) []

/-- `rorAliasList`: merge the explicit `aliases` field with the values of
alias-tagged names, deduplicate exactly (a JS `Set`), and drop empty strings
and anything equal to the display name up to case. -/
def rorAliasList (r : RorOrg) : List String :=
  let fromNames :=
    (((r.names.getD []).filter (fun n => (n.types.getD []).contains "alias")).map
      NameEntry.value).filter (fun v => v ≠ "")
  let fromAliasesField := r.aliases.getD []
  let display := jsToLower (rorDisplayName r)
  let merged := jsSetDedup (fromAliasesField ++ fromNames)
  merged.filter (fun a => a ≠ "" && jsToLower a ≠ display)

/-! ## Ranking and search -/

/-- Numeric value of the recommended flag (`Number(!!chosen)`). -/
def chosenNum (b : Bool) : Nat := if b then 1 else 0

/-- The sort comparator as a total boolean order: `a` may stay before `b`
iff the comparator value `(Number(!!b.chosen) - Number(!!a.chosen)) ||
(b.scoreLocal - a.scoreLocal)` is not positive — recommended flag
descending, then score descending. -/
def rankLE (a b : Candidate) : Bool :=
  decide (chosenNum b.chosen < chosenNum a.chosen) ||
    (decide (chosenNum a.chosen = chosenNum b.chosen) &&
      decide (b.scoreLocal ≤ a.scoreLocal))

/-- The in-place stable sort of the candidate array, modelled by a stable
merge sort under `rankLE`. -/
def rankCandidates (l : List Candidate) : List Candidate :=
  l.mergeSort rankLE

/-- Map one raw hit to a candidate: spread the organization (or the empty
fallback), coerce the score to 0 when absent or non-finite, and carry the
match type, recommended flag and substring hint. -/
def toCandidate (it : RawHit) : Candidate :=
  { org := it.organization.getD emptyRorOrg
    scoreLocal := it.score.getD 0
    matching_type := it.matching_type
    chosen := it.chosen
    substring := it.substring }

/-- The base URL stripped from a candidate id before the detail lookup. -/
def rorBaseUrl : String := "https://ror.org/"

/-- One best-effort detail lookup: `detail` models the
`/v2/organizations/\x7bid\x7d` call, returning `none` on any failure
(non-success status, network error, or a thrown exception); on success the
candidate's locations are replaced, on failure the candidate is returned
unchanged. -/
def enrichOne (detail : String → Option (List RorLocation)) (c : Candidate) : Candidate :=
  match detail (replaceFirst c.org.id rorBaseUrl) with
  | some locs => { c with org := { c.org with locations := some locs } }
  | none => c

/-- `searchRor`, from the parsed raw hits onward: map every hit to a
candidate, sort (recommended first, then score), keep the first 10, and
enrich each of those with a best-effort location lookup.  The advisory
pre-selection side effect is not part of the returned list. -/
def searchRor (raw : List RawHit) (detail : String → Option (List RorLocation)) :
    List Candidate :=
  let items := raw.map toCandidate
  let sorted := rankCandidates items
  (sorted.take 10).map (enrichOne detail)

/-! ## Progress tracking -/

/-- One link-history entry. -/
structure HistoryEntry where
  ts : Nat
  uuid : String
  orgName : String
  rorId : String
  score : ℚ
  matchType : Option String
deriving DecidableEq, Repr

/-- The award tiers computed in `doLink`:
`sl >= 0.8 ? 10 : sl >= 0.6 ? 5 : 1`. -/
def award (sl : ℚ) : Nat :=
  if 0.8 ≤ sl then 10 else if 0.6 ≤ sl then 5 else 1

/-- History insertion: prepend the new entry and truncate to the 50 most
recent. -/
def insertHistory (e : HistoryEntry) (h : List HistoryEntry) : List HistoryEntry :=
  (e :: h).take 50

/-- Repeated history insertion, oldest first (a fold of `insertHistory`). -/
def insertAll (es : List HistoryEntry) (h : List HistoryEntry) : List HistoryEntry :=
  es.foldl (fun acc e => insertHistory e acc) h

/-! ## The write call -/

/-- A JavaScript error value: its class name and message.  Every error the
write path constructs is a plain `Error`. -/
structure JsError where
  name : String
  message : String
deriving DecidableEq, Repr

/-- `new Error(msg)`. -/
def jsNewError (msg : String) : JsError := { name := "Error", message := msg }

/-- The body `putOrg` resolves with: the parsed response object, or the
minimal status-only object when the body does not parse as JSON. -/
inductive PutBody where
  | parsed (record : ExtOrgItem)
  | statusOnly (status : Nat)
deriving DecidableEq, Repr

/-- `putOrg`, with the HTTP exchange modelled as inputs: `ok` and `status`
from the response, and `jsonBody` the parsed response body (`none` when
parsing throws).  The body is parsed defensively first; then any
non-success status throws a plain `Error` carrying the status in its
message. -/
def putOrg (ok : Bool) (status : Nat) (jsonBody : Option ExtOrgItem) :
    Except JsError PutBody :=
  let responseBody : PutBody :=
    match jsonBody with
    | some r => PutBody.parsed r
    | none => PutBody.statusOnly status
  if ok then Except.ok responseBody
  else Except.error (jsNewError ("PUT failed: " ++ toString status))

/-- The error class name of a failed call, `none` on success. -/
def errName (r : Except JsError PutBody) : Option String :=
  match r with
  | Except.error e => some e.name
  | Except.ok _ => none

/-! ## The link workflow -/

/-- Toast kind. -/
inductive ToastKind
  | success
  | error
deriving DecidableEq, Repr

/-- A toast message (the source field `type` is `kind` here). -/
structure ToastMsg where
  kind : ToastKind
  message : String
deriving DecidableEq, Repr

/-- Observable outcome of one `doLink` run: how many `PUT` calls were
issued and with which payload (uuid, version, identifiers), the resulting
points and history state, the toast, whether the confirm modal is open, and
whether the workflow proceeded to load the next record. -/
structure LinkOutcome where
  putCalls : Nat
  putPayload : Option (String × String × List Identifier)
  points : Int
  history : List HistoryEntry
  toast : Option ToastMsg
  confirmOpen : Bool
  proceededToNext : Bool
deriving DecidableEq, Repr

/-- The new registry identifier appended by `doLink`. -/
def rorIdentifier (candidateId : String) : Identifier :=
  { typeDiscriminator := some "ClassifiedId", id := some candidateId, type := some ROR_TYPE }

/-- `doLink`, after its guard (a record and a selected candidate present),
with the network modelled as inputs: `latest` is the freshly refetched
record and `putResult` the outcome the single `PUT` attempt would have (its
error propagating to the catch branch).  When the refetched record already
carries a registry identifier, the run short-circuits: no `PUT`, a success
toast, state untouched, and the next record is loaded.  Otherwise exactly
one registry identifier is appended and written; on success points are
awarded and a history entry inserted, on failure state is unchanged and the
modal stays open. -/
def doLink (chosen : Candidate) (latest : ExtOrgItem)
    (putResult : Except JsError PutBody) (now : Nat)
    (points0 : Int) (history0 : List HistoryEntry) : LinkOutcome :=
  if hasRorIdentifier latest.identifiers then
    { putCalls := 0
      putPayload := none
      points := points0
      history := history0
      toast := some { kind := ToastKind.success, message := "Already linked: ROR ID is present." }
      confirmOpen := false
      proceededToNext := true }
  else
    let newIdentifiers : List Identifier :=
      latest.identifiers.getD [] ++ [rorIdentifier chosen.org.id]
    match putResult with
    | Except.ok _ =>
      let sl : ℚ := chosen.scoreLocal
      let orgName : String :=
        if pickPreferredLocale latest.name ≠ "" then pickPreferredLocale latest.name
        else "External organization"
      { putCalls := 1
        putPayload := some (latest.uuid, latest.version, newIdentifiers)
        points := points0 + (award sl : Int)
        history := insertHistory
          { ts := now, uuid := latest.uuid, orgName := orgName, rorId := chosen.org.id
            score := sl, matchType := chosen.matching_type } history0
        toast := some { kind := ToastKind.success
                        message := "Linked ROR to “" ++ orgName ++ "”." }
        confirmOpen := false
        proceededToNext := true }
    | Except.error e =>
      { putCalls := 1
        putPayload := some (latest.uuid, latest.version, newIdentifiers)
        points := points0
        history := history0
        toast := some { kind := ToastKind.error
                        message := "Failed to write to Pure: " ++ e.message }
        confirmOpen := true
        proceededToNext := false }

/-! ## Loading persisted state -/

/-- JS `stored || dflt`: the default replaces both an absent and an empty
(falsy) stored string. -/
def jsOr (stored : Option String) (dflt : String) : String :=
  match stored with
  | some v => if v = "" then dflt else v
  | none => dflt

/-- Value of a digit run. -/
def digitsVal : List Char → Nat → Nat
  | [], acc => acc
  | c :: cs, acc => digitsVal cs (acc * 10 + (c.toNat - '0'.toNat))

/-- Leading digit run of a character list, `none` when there is none. -/
def leadingDigits (cs : List Char) : Option Nat :=
  let ds := cs.takeWhile Char.isDigit
  if ds.isEmpty then none else some (digitsVal ds 0)

/-- JS `parseInt(s, 10)`: skip leading whitespace, read an optional sign
and a leading digit run; the result is `none` for `NaN` (no digits). -/
def jsParseInt (s : String) : Option Int :=
  let cs := s.data.dropWhile isJsSpace
  match cs with
  | '-' :: rest => (leadingDigits rest).map (fun n => -(n : Int))
  | '+' :: rest => (leadingDigits rest).map (fun n => (n : Int))
  | _ => (leadingDigits cs).map (fun n => (n : Int))

/-- Loading the points state: `parseInt(stored || "0", 10)`; `none` models
the `NaN` result on a stored string with no leading digits. -/
def loadPoints (stored : Option String) : Option Int :=
  jsParseInt (jsOr stored "0")

/-- Loading the history state: `JSON.parse(stored || "[]")` inside
try/catch, falling back to the empty list when parsing throws.  `parse`
models the `JSON.parse`-and-decode step as an oracle (`none` = throw). -/
def loadHistory (parse : String → Option (List HistoryEntry)) (stored : Option String) :
    List HistoryEntry :=
  (parse (jsOr stored "[]")).getD []

/-! ## Concrete fixtures for witnesses and counterexamples -/

/-- A raw hit with no organization object and no usable score. -/
def defaultHit : RawHit :=
  { organization := none, score := none, matching_type := none, chosen := false
    substring := none }

/-- A registry organization whose alias sources differ only in case. -/
def aliasCaseOrg : RorOrg :=
  { id := "x", name := some "Bar"
    names := some [{ value := "foo", types := some ["alias"], lang := none }]
    aliases := some ["FOO"], acronyms := none, links := none, locations := none }

/-- A small registry organization used in ranking examples. -/
def sampleOrg : RorOrg :=
  { id := "https://ror.org/01aff2v68", name := some "Aalborg University"
    names := none, aliases := none, acronyms := none, links := none, locations := none }

/-- The recommended one of two otherwise identical 0.95-score results. -/
def recCand : Candidate :=
  { org := sampleOrg, scoreLocal := 0.95, matching_type := some "EXACT"
    chosen := true, substring := none }

/-- The non-recommended twin of `recCand`. -/
def otherCand : Candidate :=
  { org := sampleOrg, scoreLocal := 0.95, matching_type := some "EXACT"
    chosen := false, substring := none }

/-- A refetched record that already carries a registry identifier. -/
def linkedLatest : ExtOrgItem :=
  { uuid := "u1", version := "7", name := some [("en_GB", "Aalborg University")]
    identifiers := some [rorIdentifier "https://ror.org/01aff2v68"]
    workflow := some { step := some "approved" } }

/-- A refetched record with no registry identifier. -/
def unlinkedLatest : ExtOrgItem :=
  { uuid := "u2", version := "3", name := some [("en_GB", "Example Org")]
    identifiers := some []
    workflow := some { step := some "forApproval" } }

/-- History entry `i` of the insertion examples. -/
def mkEntry (i : Nat) : HistoryEntry :=
  { ts := i, uuid := "u", orgName := "o", rorId := "r", score := 0, matchType := none }

/-- Fifty history entries, inserted after `mkEntry 0` in the 51-insertion
example. -/
def restW : List HistoryEntry := (List.range 50).map (fun i => mkEntry (i + 1))

/-! ## Helper lemmas -/

/-- Unfolding of the eligibility filter into its two conditions. -/
theorem eligibleOrg_iff (item : ExtOrgItem) :
    eligibleOrg item = true ↔
      (workflowStep item = some "forApproval" ∨ workflowStep item = some "approved") ∧
        hasRorIdentifier item.identifiers = false := by
  simp [eligibleOrg]

/-- A list without a registry identifier has a zero registry count. -/
theorem countRor_eq_zero (ids : List Identifier)
    (h : hasRorIdentifier (some ids) = false) : countRor ids = 0 := by
  simp only [hasRorIdentifier, List.any_eq_true, not_exists, Bool.not_eq_true] at h
  simp only [countRor, List.length_eq_zero, List.filter_eq_nil_iff]
  intro a ha
  simp_all

/-- The registry count is additive over append. -/
theorem countRor_append (xs ys : List Identifier) :
    countRor (xs ++ ys) = countRor xs + countRor ys := by
  simp [countRor, List.filter_append]

/-- The identifier `doLink` appends is a registry identifier. -/
theorem isRorId_rorIdentifier (cid : String) : isRorId (rorIdentifier cid) = true := by
  simp only [isRorId, rorIdentifier, ROR_TYPE]
  decide

/-! ## Claim theorems -/

/-- C1: a `fetchRandomOrg` call returns the probed record exactly when the
page at the drawn offset starts with a record whose workflow step is
`forApproval` or `approved` and which carries no registry identifier; in
every other case, an empty page included, it returns `none`, and whenever
the catalog is non-empty it performs exactly one page probe. -/
theorem fetchRandomOrg_eligibility (count : Nat) (pageAt : Nat → List ExtOrgItem)
    (offset : Nat) :
    (∀ item : ExtOrgItem,
        (fetchRandomOrg count pageAt offset).1 = some item ↔
          count ≠ 0 ∧ (pageAt offset).head? = some item ∧
            (workflowStep item = some "forApproval" ∨
              workflowStep item = some "approved") ∧
            hasRorIdentifier item.identifiers = false) ∧
      (count ≠ 0 → (fetchRandomOrg count pageAt offset).2 = 1) ∧
      (pageAt offset = [] → (fetchRandomOrg count pageAt offset).1 = none) := by
  refine ⟨fun item => ?_, fun hc => ?_, fun hp => ?_⟩
  · unfold fetchRandomOrg
    by_cases hc : count = 0
    · simp [hc]
    · rw [if_neg hc]
      cases hh : (pageAt offset).head? with
      | none => simp [hh, hc]
      | some it =>
        dsimp only
        by_cases he : eligibleOrg it = true
        · rw [if_pos he]
          constructor
          · intro h
            have hit : it = item := by simpa using h
            subst hit
            exact ⟨hc, rfl, (eligibleOrg_iff it).mp he⟩
          · rintro ⟨-, h2, -⟩
            exact h2
        · rw [if_neg he]
          constructor
          · intro h; cases h
          · rintro ⟨-, h2, h3⟩
            have hit : it = item := by simpa using h2
            subst hit
            exact absurd ((eligibleOrg_iff it).mpr h3) he
  · unfold fetchRandomOrg
    rw [if_neg hc]
    cases (pageAt offset).head? with
    | none => rfl
    | some it => by_cases he : eligibleOrg it <;> simp [he]
  · unfold fetchRandomOrg
    by_cases hc : count = 0
    · simp [hc]
    · simp [hc, hp]

/-- C1 witness: on a one-record catalog whose record is approved and free of
a registry identifier, the record is returned and one probe happens. -/
theorem fetchRandomOrg_eligibility_witness :
    ((fetchRandomOrg 1 (fun _ => [unlinkedLatest]) 0).1 = some unlinkedLatest ↔
        (1 : Nat) ≠ 0 ∧ [unlinkedLatest].head? = some unlinkedLatest ∧
          (workflowStep unlinkedLatest = some "forApproval" ∨
            workflowStep unlinkedLatest = some "approved") ∧
          hasRorIdentifier unlinkedLatest.identifiers = false) ∧
      (fetchRandomOrg 1 (fun _ => [unlinkedLatest]) 0).2 = 1 :=
  ⟨(fetchRandomOrg_eligibility 1 (fun _ => [unlinkedLatest]) 0).1 unlinkedLatest,
    (fetchRandomOrg_eligibility 1 (fun _ => [unlinkedLatest]) 0).2.1 (by decide)⟩

/-- C2: when the freshly refetched record already carries a registry
identifier, `doLink` issues no `PUT`, reports the already-linked success
toast, proceeds to load the next record, and leaves points and history
unchanged. -/
theorem doLink_already_linked (chosen : Candidate) (latest : ExtOrgItem)
    (putResult : Except JsError PutBody) (now : Nat)
    (points0 : Int) (history0 : List HistoryEntry)
    (h : hasRorIdentifier latest.identifiers = true) :
    (doLink chosen latest putResult now points0 history0).putCalls = 0 ∧
      (doLink chosen latest putResult now points0 history0).putPayload = none ∧
      (doLink chosen latest putResult now points0 history0).toast =
        some { kind := ToastKind.success
               message := "Already linked: ROR ID is present." } ∧
      (doLink chosen latest putResult now points0 history0).proceededToNext = true ∧
      (doLink chosen latest putResult now points0 history0).points = points0 ∧
      (doLink chosen latest putResult now points0 history0).history = history0 := by
  simp [doLink, h]

/-- C2 witness: the short circuit on a concrete already-linked record. -/
theorem doLink_already_linked_witness :
    hasRorIdentifier linkedLatest.identifiers = true ∧
      (doLink recCand linkedLatest (Except.ok (PutBody.statusOnly 200)) 5 17
          [mkEntry 9]).putCalls = 0 ∧
      (doLink recCand linkedLatest (Except.ok (PutBody.statusOnly 200)) 5 17
          [mkEntry 9]).points = 17 ∧
      (doLink recCand linkedLatest (Except.ok (PutBody.statusOnly 200)) 5 17
          [mkEntry 9]).history = [mkEntry 9] := by
  have h : hasRorIdentifier linkedLatest.identifiers = true := by decide
  have := doLink_already_linked recCand linkedLatest
    (Except.ok (PutBody.statusOnly 200)) 5 17 [mkEntry 9] h
  exact ⟨h, this.1, this.2.2.2.2.1, this.2.2.2.2.2⟩

/-- C3: every identifier list `doLink` hands to the `PUT` call contains at
most one registry identifier (in fact exactly one): the new registry
identifier is appended only after the refreshed list was checked to
contain none. -/
theorem doLink_put_at_most_one_ror (chosen : Candidate) (latest : ExtOrgItem)
    (putResult : Except JsError PutBody) (now : Nat)
    (points0 : Int) (history0 : List HistoryEntry)
    (u v : String) (ids : List Identifier)
    (h : (doLink chosen latest putResult now points0 history0).putPayload =
      some (u, v, ids)) :
    countRor ids = 1 ∧ countRor ids ≤ 1 := by
  by_cases hr : hasRorIdentifier latest.identifiers = true
  · simp [doLink, hr] at h
  · have hr' : hasRorIdentifier latest.identifiers = false := by
      simpa using hr
    have hids : ids = latest.identifiers.getD [] ++ [rorIdentifier chosen.org.id] := by
      cases putResult with
      | ok b => simp [doLink, hr'] at h; exact h.2.2.symm
      | error e => simp [doLink, hr'] at h; exact h.2.2.symm
    have hz : countRor (latest.identifiers.getD []) = 0 := by
      cases hi : latest.identifiers with
      | none => simp [countRor]
      | some l =>
        apply countRor_eq_zero
        rw [hi] at hr'
        exact hr'
    have hone : countRor [rorIdentifier chosen.org.id] = 1 := by
      simp [countRor, isRorId_rorIdentifier]
    have : countRor ids = 1 := by
      rw [hids, countRor_append, hz, hone]
    exact ⟨this, this.le⟩

/-- C3 witness: the payload written for a concrete unlinked record carries
exactly one registry identifier. -/
theorem doLink_put_at_most_one_ror_witness :
    (doLink recCand unlinkedLatest (Except.ok (PutBody.statusOnly 200)) 5 0
        []).putPayload =
      some ("u2", "3", [rorIdentifier "https://ror.org/01aff2v68"]) ∧
      countRor [rorIdentifier "https://ror.org/01aff2v68"] = 1 := by
  have h : (doLink recCand unlinkedLatest (Except.ok (PutBody.statusOnly 200)) 5 0
      []).putPayload = some ("u2", "3", [rorIdentifier "https://ror.org/01aff2v68"]) := by
    decide
  exact ⟨h, (doLink_put_at_most_one_ror recCand unlinkedLatest
    (Except.ok (PutBody.statusOnly 200)) 5 0 [] "u2" "3"
    [rorIdentifier "https://ror.org/01aff2v68"] h).1⟩

/-- C4 counterexample: on a stale-token rejection (a non-success status,
409 here) the code throws the same plain `Error` kind as on any other
non-success status (500 here) — there is no distinct `ConflictError` or
`TransportError` kind for the caller to tell apart. -/
theorem putOrg_no_conflict_kind_counterexample :
    putOrg false 409 none =
        Except.error { name := "Error", message := "PUT failed: 409" } ∧
      putOrg false 500 none =
        Except.error { name := "Error", message := "PUT failed: 500" } ∧
      errName (putOrg false 409 none) = errName (putOrg false 500 none) ∧
      ("Error" : String) ≠ "ConflictError" ∧
      ("Error" : String) ≠ "TransportError" := by
  refine ⟨rfl, rfl, rfl, by decide, by decide⟩

/-- C4 amended: every non-success `putOrg` call fails with one generic
`Error` whose message embeds the numeric status, so a stale-token
rejection differs from other failures only by that embedded status, not
by error kind; on success with an unparsable body the minimal status-only
object is returned, and a parsable body is returned as parsed. -/
theorem putOrg_amended :
    (∀ (status : Nat) (body : Option ExtOrgItem),
        putOrg false status body =
          Except.error { name := "Error", message := "PUT failed: " ++ toString status }) ∧
      (∀ (s₁ s₂ : Nat) (b₁ b₂ : Option ExtOrgItem),
          errName (putOrg false s₁ b₁) = errName (putOrg false s₂ b₂)) ∧
      (∀ status : Nat, putOrg true status none = Except.ok (PutBody.statusOnly status)) ∧
      (∀ (status : Nat) (r : ExtOrgItem),
          putOrg true status (some r) = Except.ok (PutBody.parsed r)) := by
  refine ⟨fun status body => ?_, fun s₁ s₂ b₁ b₂ => ?_, fun status => rfl, fun status r => rfl⟩
  · cases body <;> rfl
  · cases b₁ <;> cases b₂ <;> rfl

/-- C8: the award tiers — 10 points from 0.8 up, 5 points from 0.6 up to
below 0.8, 1 point below 0.6 — including the spec's sample values. -/
theorem award_tiers (s : ℚ) :
    (0.8 ≤ s → award s = 10) ∧
      (0.6 ≤ s → s < 0.8 → award s = 5) ∧
      (s < 0.6 → award s = 1) ∧
      award 0.9 = 10 ∧ award 0.8 = 10 ∧ award 0.79999 = 5 ∧
      award 0.6 = 5 ∧ award 0.1 = 1 := by
  refine ⟨fun h => ?_, fun h1 h2 => ?_, fun h => ?_, ?_, ?_, ?_, ?_, ?_⟩
  · simp [award, h]
  · rw [award, if_neg (by linarith), if_pos h1]
  · rw [award, if_neg (by linarith), if_neg (by linarith)]
  all_goals norm_num [award]

/-- C8 witness: the tier implications discharged at sample scores. -/
theorem award_tiers_witness :
    ((0.8 : ℚ) ≤ 0.85 ∧ award 0.85 = 10) ∧
      ((0.6 : ℚ) ≤ 0.7 ∧ (0.7 : ℚ) < 0.8 ∧ award 0.7 = 5) ∧
      ((0.5 : ℚ) < 0.6 ∧ award 0.5 = 1) :=
  ⟨⟨by norm_num, (award_tiers 0.85).1 (by norm_num)⟩,
    ⟨by norm_num, by norm_num, (award_tiers 0.7).2.1 (by norm_num) (by norm_num)⟩,
    ⟨by norm_num, (award_tiers 0.5).2.2.1 (by norm_num)⟩⟩

/-- Folding `insertHistory` over a batch equals prepending the batch in
reverse and truncating, whenever the start state is within the cap. -/
theorem insertAll_eq_take (es : List HistoryEntry) (h : List HistoryEntry)
    (hh : h.length ≤ 50) : insertAll es h = (es.reverse ++ h).take 50 := by
  induction es generalizing h with
  | nil => simp [insertAll, List.take_of_length_le hh]
  | cons e es ih =>
    have step : insertAll (e :: es) h = insertAll es (insertHistory e h) := rfl
    rw [step, ih (insertHistory e h) (by simp [insertHistory])]
    show (es.reverse ++ (e :: h).take 50).take 50 = ((e :: es).reverse ++ h).take 50
    rw [List.take_append_eq_append_take, List.take_take,
      Nat.min_eq_left (Nat.sub_le 50 es.reverse.length)]
    rw [List.reverse_cons, List.append_assoc, List.singleton_append,
      List.take_append_eq_append_take]

/-- C9: history insertion prepends the new entry and truncates to the 50
most recent, so the history never exceeds 50 entries; inserting 51
distinct entries into an empty history yields the last 50 in
newest-first order, without the first-inserted entry. -/
theorem insertHistory_spec (e : HistoryEntry) (h : List HistoryEntry)
    (e₁ : HistoryEntry) (rest : List HistoryEntry) :
    insertHistory e h = e :: h.take 49 ∧
      (insertHistory e h).length ≤ 50 ∧
      (rest.length = 50 → (e₁ :: rest).Nodup →
        insertAll (e₁ :: rest) [] = (e₁ :: rest).reverse.take 50 ∧
          insertAll (e₁ :: rest) [] = rest.reverse ∧
          e₁ ∉ insertAll (e₁ :: rest) []) := by
  refine ⟨rfl, by simp [insertHistory], fun hlen hnd => ?_⟩
  have h1 : insertAll (e₁ :: rest) [] = (e₁ :: rest).reverse.take 50 := by
    rw [insertAll_eq_take (e₁ :: rest) [] (by simp), List.append_nil]
  have h2 : insertAll (e₁ :: rest) [] = rest.reverse := by
    rw [h1, List.reverse_cons, List.take_append_eq_append_take,
      List.take_of_length_le (by simp [hlen]), List.length_reverse, hlen]
    simp
  refine ⟨h1, h2, ?_⟩
  rw [h2, List.mem_reverse]
  exact (List.nodup_cons.mp hnd).1

/-- C9 witness: 51 concrete distinct insertions into an empty history. -/
theorem insertHistory_spec_witness :
    restW.length = 50 ∧ (mkEntry 0 :: restW).Nodup ∧
      insertAll (mkEntry 0 :: restW) [] = restW.reverse ∧
      mkEntry 0 ∉ insertAll (mkEntry 0 :: restW) [] := by
  have hlen : restW.length = 50 := by simp [restW]
  have hinj : Function.Injective (fun i => mkEntry (i + 1)) := by
    intro i j hij
    simpa [mkEntry] using hij
  have hnd : (mkEntry 0 :: restW).Nodup := by
    rw [List.nodup_cons]
    constructor
    · simp only [restW, List.mem_map]
      rintro ⟨i, -, hi⟩
      simp [mkEntry] at hi
    · exact (List.nodup_range 50).map hinj
  have := (insertHistory_spec (mkEntry 0) [] (mkEntry 0) restW).2.2 hlen hnd
  exact ⟨hlen, hnd, this.2.1, this.2.2⟩

/-- C10 counterexample: a stored points string with no numeric prefix does
not load as the empty-state value 0 — `parseInt` yields `NaN` (modelled
`none`), not 0. -/
theorem loadPoints_malformed_counterexample :
    loadPoints (some "abc") = none ∧ loadPoints (some "abc") ≠ some 0 := by
  refine ⟨rfl, by decide⟩

/-- C10 amended: loading is total (never throws); a stored history string
whose parse fails loads as the empty history, and absent or empty stored
points load as 0 — but any other stored points string loads as the raw
`parseInt` result, which is `NaN` (not 0) when the string has no leading
digits. -/
theorem load_state_amended :
    (∀ (parse : String → Option (List HistoryEntry)) (stored : Option String),
        parse (jsOr stored "[]") = none → loadHistory parse stored = []) ∧
      loadPoints none = some 0 ∧
      loadPoints (some "") = some 0 ∧
      (∀ s : String, s ≠ "" → loadPoints (some s) = jsParseInt s) := by
  refine ⟨fun parse stored h => ?_, rfl, rfl, fun s hs => ?_⟩
  · simp [loadHistory, h]
  · simp [loadPoints, jsOr, hs]

/-- C10 amended witness: a failing parse falls back to the empty history,
and a concrete malformed points string loads as the raw parse result. -/
theorem load_state_amended_witness :
    loadHistory (fun _ => none) none = [] ∧
      loadPoints (some "abc") = jsParseInt "abc" :=
  ⟨load_state_amended.1 (fun _ => none) none rfl,
    load_state_amended.2.2.2 "abc" (by decide)⟩

/-- The fold underlying `jsSetDedup` preserves `Nodup`. -/
theorem jsSetDedup_foldl_nodup (l : List String) :
    ∀ acc : List String, acc.Nodup →
      (l.foldl (fun acc x => if x ∈ acc then acc else acc ++ [x]) acc).Nodup := by
  induction l with
  | nil => intro acc h; simpa using h
  | cons x xs ih =>
    intro acc h
    simp only [List.foldl_cons]
    apply ih
    by_cases hx : x ∈ acc
    · simpa [hx] using h
    · rw [if_neg hx]
      exact h.append (List.nodup_singleton x) (by simp [hx])

/-- Membership through the fold underlying `jsSetDedup`. -/
theorem jsSetDedup_foldl_mem (l : List String) :
    ∀ (acc : List String) (a : String),
      (a ∈ l.foldl (fun acc x => if x ∈ acc then acc else acc ++ [x]) acc ↔
        a ∈ acc ∨ a ∈ l) := by
  induction l with
  | nil => intro acc a; simp
  | cons x xs ih =>
    intro acc a
    simp only [List.foldl_cons]
    rw [ih]
    by_cases hx : x ∈ acc
    · rw [if_pos hx]
      constructor
      · rintro (h | h)
        · exact Or.inl h
        · exact Or.inr (List.mem_cons_of_mem x h)
      · rintro (h | h)
        · exact Or.inl h
        · rcases List.mem_cons.mp h with rfl | h
          · exact Or.inl hx
          · exact Or.inr h
    · rw [if_neg hx]
      simp only [List.mem_append, List.mem_singleton, List.mem_cons]
      tauto

/-- `jsSetDedup` has no exact duplicates. -/
theorem jsSetDedup_nodup (l : List String) : (jsSetDedup l).Nodup :=
  jsSetDedup_foldl_nodup l [] (by simp)

/-- `jsSetDedup` keeps exactly the members of its input. -/
theorem mem_jsSetDedup (l : List String) (a : String) : a ∈ jsSetDedup l ↔ a ∈ l := by
  simpa using jsSetDedup_foldl_mem l [] a

/-- C7 counterexample: with an explicit alias `"FOO"` and an alias-tagged
name `"foo"`, the derived alias list keeps both — deduplication is exact,
not case-insensitive, so the list contains two entries equal up to case. -/
theorem rorAliasList_case_counterexample :
    rorAliasList aliasCaseOrg = ["FOO", "foo"] ∧
      jsToLower "FOO" = jsToLower "foo" ∧ ("FOO" : String) ≠ "foo" := by
  refine ⟨by decide, rfl, by decide⟩

/-- C7 amended: the derived alias list is the union of the explicit alias
field and the alias-tagged names, deduplicated exactly (case-sensitively),
and it never contains the computed display name up to case; entries equal
only up to case may however both remain. -/
theorem rorAliasList_amended (r : RorOrg) :
    (rorAliasList r).Nodup ∧
      (∀ a ∈ rorAliasList r, jsToLower a ≠ jsToLower (rorDisplayName r)) ∧
      (∀ a ∈ rorAliasList r,
          a ∈ r.aliases.getD [] ∨
            a ∈ ((r.names.getD []).filter
                (fun n => (n.types.getD []).contains "alias")).map NameEntry.value) := by
  refine ⟨(jsSetDedup_nodup _).filter _, fun a ha => ?_, fun a ha => ?_⟩
  · simp only [rorAliasList, List.mem_filter, Bool.and_eq_true, decide_eq_true_eq] at ha
    exact ha.2.2
  · simp only [rorAliasList, List.mem_filter] at ha
    have hmem := ha.1
    rw [mem_jsSetDedup] at hmem
    rcases List.mem_append.mp hmem with h | h
    · exact Or.inl h
    · exact Or.inr (List.mem_filter.mp h).1

/-- C7 amended witness: the surviving alias of the concrete example is in
the union and differs from the display name up to case. -/
theorem rorAliasList_amended_witness :
    ("FOO" ∈ rorAliasList aliasCaseOrg) ∧
      jsToLower "FOO" ≠ jsToLower (rorDisplayName aliasCaseOrg) ∧
      ("FOO" ∈ aliasCaseOrg.aliases.getD [] ∨
        "FOO" ∈ ((aliasCaseOrg.names.getD []).filter
            (fun n => (n.types.getD []).contains "alias")).map NameEntry.value) :=
  ⟨by decide,
    (rorAliasList_amended aliasCaseOrg).2.1 "FOO" (by decide),
    (rorAliasList_amended aliasCaseOrg).2.2 "FOO" (by decide)⟩

/-- Propositional reading of the comparator order. -/
theorem rankLE_iff (a b : Candidate) :
    rankLE a b = true ↔
      chosenNum b.chosen < chosenNum a.chosen ∨
        (chosenNum a.chosen = chosenNum b.chosen ∧ b.scoreLocal ≤ a.scoreLocal) := by
  simp [rankLE]

/-- The comparator order is total. -/
theorem rankLE_total (a b : Candidate) : rankLE a b || rankLE b a := by
  rw [Bool.or_eq_true, rankLE_iff, rankLE_iff]
  rcases Nat.lt_trichotomy (chosenNum a.chosen) (chosenNum b.chosen) with h | h | h
  · exact Or.inr (Or.inl h)
  · rcases le_total b.scoreLocal a.scoreLocal with hs | hs
    · exact Or.inl (Or.inr ⟨h, hs⟩)
    · exact Or.inr (Or.inr ⟨h.symm, hs⟩)
  · exact Or.inl (Or.inl h)

/-- The comparator order is transitive. -/
theorem rankLE_trans (a b c : Candidate) (h₁ : rankLE a b) (h₂ : rankLE b c) :
    rankLE a c := by
  rw [rankLE_iff] at h₁ h₂ ⊢
  rcases h₁ with h₁ | ⟨h₁e, h₁s⟩
  · rcases h₂ with h₂ | ⟨h₂e, h₂s⟩
    · exact Or.inl (h₂.trans h₁)
    · exact Or.inl (h₂e ▸ h₁)
  · rcases h₂ with h₂ | ⟨h₂e, h₂s⟩
    · exact Or.inl (h₁e ▸ h₂)
    · exact Or.inr ⟨h₁e.trans h₂e, h₂s.trans h₁s⟩

/-- A stable sort does not reorder elements that are mutually tied under
the comparison: filtering the sorted list by a class of mutually tied
elements returns them in input order. -/
theorem mergeSort_filter_tied {α : Type} (le : α → α → Bool)
    (trans : ∀ (a b c : α), le a b → le b c → le a c)
    (total : ∀ (a b : α), le a b || le b a)
    (p : α → Bool) (hp : ∀ x y, p x → p y → le x y) (l : List α) :
    (l.mergeSort le).filter p = l.filter p := by
  have h1 : List.Sublist (l.filter p) l := List.filter_sublist l
  have hpair : (l.filter p).Pairwise (fun x y => le x y = true) := by
    apply List.pairwise_of_forall_mem_list
    intro a ha b hb
    exact hp a b (List.mem_filter.mp ha).2 (List.mem_filter.mp hb).2
  have h2 : List.Sublist (l.filter p) (l.mergeSort le) :=
    List.sublist_mergeSort trans total hpair h1
  have h3 : List.Sublist (l.filter p) ((l.mergeSort le).filter p) := by
    have h4 := h2.filter p
    rwa [List.filter_eq_self.mpr (fun a ha => (List.mem_filter.mp ha).2)] at h4
  have h5 : ((l.mergeSort le).filter p).length = (l.filter p).length :=
    ((l.mergeSort_perm le).filter p).length_eq
  exact (h3.eq_of_length h5.symm).symm

/-- The tie class of one (recommended, score) key. -/
def tieKey (b : Bool) (s : ℚ) (c : Candidate) : Bool :=
  c.chosen == b && decide (c.scoreLocal = s)

/-- C6: ranking is a permutation that orders candidates by recommended
flag descending then score descending, it is stable on ties — candidates
with equal flag and equal score keep their input order — and of two
0.95-score twins where only the first is recommended, the recommended one
is placed first. -/
theorem rankCandidates_spec :
    (∀ l : List Candidate, (rankCandidates l).Pairwise (fun a b => rankLE a b = true)) ∧
      (∀ l : List Candidate, List.Perm (rankCandidates l) l) ∧
      (∀ (l : List Candidate) (b : Bool) (s : ℚ),
          (rankCandidates l).filter (tieKey b s) = l.filter (tieKey b s)) ∧
      rankCandidates [recCand, otherCand] = [recCand, otherCand] := by
  refine ⟨fun l => ?_, fun l => l.mergeSort_perm rankLE, fun l b s => ?_, ?_⟩
  · exact List.sorted_mergeSort rankLE_trans rankLE_total l
  · apply mergeSort_filter_tied rankLE rankLE_trans rankLE_total
    intro x y hx hy
    simp only [tieKey, Bool.and_eq_true, beq_iff_eq, decide_eq_true_eq] at hx hy
    rw [rankLE_iff]
    exact Or.inr ⟨by rw [hx.1, hy.1], le_of_eq (hy.2.trans hx.2.symm)⟩
  · apply List.mergeSort_of_sorted
    refine List.pairwise_cons.mpr ⟨?_, List.pairwise_singleton _ _⟩
    intro b hb
    rcases List.mem_singleton.mp hb with rfl
    decide

/-- The search result is capped at 10 candidates. -/
theorem searchRor_length (raw : List RawHit) (detail : String → Option (List RorLocation)) :
    (searchRor raw detail).length = min 10 raw.length := by
  simp [searchRor, rankCandidates]

/-- C5 counterexample: with 11 raw hits the returned list has only the 10
top-ranked candidates, not one candidate per raw hit. -/
theorem searchRor_truncation_counterexample :
    (searchRor (List.replicate 11 defaultHit) (fun _ => none)).length = 10 ∧
      (List.replicate 11 defaultHit).length = 11 ∧ (10 : Nat) ≠ 11 := by
  refine ⟨?_, by simp, by decide⟩
  rw [searchRor_length]
  simp

/-- C5 amended: the search maps each raw hit to a candidate with the score
coerced to 0 when absent or non-finite, ranks them, and returns only the
top 10 (so the length is the minimum of 10 and the raw count), each
enriched by an independent best-effort detail lookup; a failed lookup
leaves that candidate exactly as it was, and every returned candidate is
the enrichment of the candidate of some raw hit. -/
theorem searchRor_amended (raw : List RawHit)
    (detail : String → Option (List RorLocation)) :
    (searchRor raw detail).length = min 10 raw.length ∧
      searchRor raw detail =
        ((rankCandidates (raw.map toCandidate)).take 10).map (enrichOne detail) ∧
      (∀ hit : RawHit, (toCandidate hit).scoreLocal = hit.score.getD 0) ∧
      (∀ c : Candidate, detail (replaceFirst c.org.id rorBaseUrl) = none →
          enrichOne detail c = c) ∧
      (∀ c ∈ searchRor raw detail, ∃ hit ∈ raw, c = enrichOne detail (toCandidate hit)) := by
  refine ⟨searchRor_length raw detail, rfl, fun hit => rfl, fun c hc => ?_, fun c hc => ?_⟩
  · simp [enrichOne, hc]
  · simp only [searchRor] at hc
    rcases List.mem_map.mp hc with ⟨c₀, hc₀, rfl⟩
    have hmem : c₀ ∈ rankCandidates (raw.map toCandidate) := List.mem_of_mem_take hc₀
    rw [rankCandidates, List.mem_mergeSort] at hmem
    rcases List.mem_map.mp hmem with ⟨hit, hhit, rfl⟩
    exact ⟨hit, hhit, rfl⟩

/-- C5 amended witness: a one-hit search returns exactly the mapped
candidate, unenriched because the detail lookup fails. -/
theorem searchRor_amended_witness :
    searchRor [defaultHit] (fun _ => none) = [toCandidate defaultHit] ∧
      enrichOne (fun _ => none) (toCandidate defaultHit) = toCandidate defaultHit ∧
      (∃ hit ∈ [defaultHit],
        toCandidate defaultHit = enrichOne (fun _ => none) (toCandidate hit)) := by
  have h1 : searchRor [defaultHit] (fun _ => none) = [toCandidate defaultHit] := by
    simp [searchRor, rankCandidates, enrichOne]
  have h2 := (searchRor_amended [defaultHit] (fun _ => none)).2.2.2.1
    (toCandidate defaultHit) rfl
  have h3 := (searchRor_amended [defaultHit] (fun _ => none)).2.2.2.2
    (toCandidate defaultHit) (by rw [h1]; exact List.mem_singleton_self _)
  exact ⟨h1, h2, h3⟩

end PureRor
